import Mathlib

/-!
Verification of the tagging helpers, account-filter logic and per-service
retry predicates of the terraform-provider-aws repository.

The Go code is shallowly embedded: Go maps become association lists with
pairwise-distinct keys, AWS API calls become explicit call traces with their
outcomes supplied by an oracle, and the per-service retry handlers become
functions on a request record mirroring `aws-sdk-go`'s `request.Request`
fields that the handlers read and write (`Operation.Name`, `Error`,
`RetryCount`, `Retryable`).
-/

/-- An AWS API error as the v1 SDK surfaces it: an error code plus a message.
`tfawserr.ErrCodeEquals` and `tfawserr.ErrMessageContains` match on these two
fields. -/
structure AWSError where
  code : String
  message : String
deriving DecidableEq, Repr

/-- A Go `map[string]string`, embedded as an association list. A map built by
Go map assignment has pairwise-distinct keys; theorems carry that `Nodup`
hypothesis where they rely on it. -/
abbrev TagMap := List (String × String)

/-- Go map read `v, ok := m[k]`: the value at the first (with distinct keys,
the only) entry whose key is `k`. -/
def lookupTag : TagMap → String → Option String
  | [], _ => none
  | (k0, v) :: rest, k => if k0 = k then some v else lookupTag rest k

/-- Go map membership test `_, ok := m[k]`. -/
def hasKey (m : TagMap) (k : String) : Bool :=
  (lookupTag m k).isSome

/-- Go map assignment `m[k] = v`: replaces the value of the existing entry for
`k` when there is one and appends a fresh entry otherwise. -/
def mapAssign : TagMap → String → String → TagMap
  | [], k, v => [(k, v)]
  | (k0, v0) :: rest, k, v =>
      if k0 = k then (k0, v) :: rest else (k0, v0) :: mapAssign rest k v

/-- A Go `map[string]string` built from a list of entries by repeated map
assignment: the loop body shared by every generated `KeyValueTags`. -/
def goMapOfList (l : List (String × String)) : TagMap :=
  l.foldl (fun m kv => mapAssign m kv.1 kv.2) []

namespace tftags

/-- Modelled from the spec: the `internal/tags` package (`tftags`) is not under
src/. The spec describes a tag set as an ordered-irrelevant mapping from
string key to string value; `New` normalizes its argument into such a mapping
and on a map it is the identity. -/
def New (m : TagMap) : TagMap := m

/-- Modelled from the spec: the `internal/tags` package is not under src/. The
spec reconciles tag sets by set-difference (added/removed/unchanged);
`oldTags.Removed(newTags)` is the removed side: the entries of the old tag set
whose key no longer appears in the new one. -/
def Removed (oldTags newTags : TagMap) : TagMap :=
  oldTags.filter (fun kv => !(hasKey newTags kv.1))

/-- Modelled from the spec: the `internal/tags` package is not under src/. The
spec reconciles tag sets by set-difference (added/removed/unchanged);
`oldTags.Updated(newTags)` is the added-or-changed side: the entries of the
new tag set whose key is absent from the old one or mapped to a different
value there. -/
def Updated (oldTags newTags : TagMap) : TagMap :=
  newTags.filter (fun kv => !(lookupTag oldTags kv.1 == some kv.2))

/-- Modelled from the spec: the `internal/tags` package is not under src/.
`IgnoreAWS` drops the AWS-internal tag keys (those in the `aws:` key space)
before a tag set is sent to the API; the claims depend on it only through the
payloads of the emitted calls. -/
def IgnoreAWS (t : TagMap) : TagMap :=
  t.filter (fun kv => !(kv.1.startsWith "aws:"))

/-- Modelled from the spec: the `internal/tags` package is not under src/.
`Keys` lists the keys of a tag set. -/
def Keys (t : TagMap) : List String :=
  t.map Prod.fst

end tftags

/-- tags_gen.go (shield, ecs, wafv2, elbv2, codeartifact — the generated body
is identical), `Tags`: converts a tag set into the service tag list by ranging
over the Go map. Go map iteration order is unspecified, so theorems about the
produced list quantify over its permutations. -/
def Tags (tags : TagMap) : List (String × String) :=
  tags

/-- tags_gen.go, `KeyValueTags`: rebuilds a tag set from a service tag list,
one Go map assignment per element, then `tftags.New`. -/
def KeyValueTags (tags : List (String × String)) : TagMap :=
  tftags.New (goMapOfList tags)

theorem lookupTag_mapAssign (m : TagMap) (k v k' : String) :
    lookupTag (mapAssign m k v) k' = if k = k' then some v else lookupTag m k' := by
  induction m with
  | nil => simp [mapAssign, lookupTag]
  | cons hd tl ih =>
      obtain ⟨k0, v0⟩ := hd
      by_cases h0 : k0 = k
      · subst h0
        by_cases h1 : k0 = k' <;> simp [mapAssign, lookupTag, h1]
      · by_cases h1 : k0 = k'
        · subst h1
          simp [mapAssign, lookupTag, h0, Ne.symm h0]
        · simp [mapAssign, lookupTag, h0, h1, ih]

theorem lookupTag_goMapOfList_append (l : List (String × String))
    (p : String × String) (k : String) :
    lookupTag (goMapOfList (l ++ [p])) k =
      if p.1 = k then some p.2 else lookupTag (goMapOfList l) k := by
  simp [goMapOfList, List.foldl_append, lookupTag_mapAssign]

theorem lookupTag_goMapOfList (l : List (String × String)) (k : String) :
    lookupTag (goMapOfList l) k = lookupTag l.reverse k := by
  induction l using List.reverseRecOn with
  | nil => rfl
  | append_singleton l p ih =>
      rw [lookupTag_goMapOfList_append, List.reverse_append]
      simp [lookupTag, ih]

theorem lookupTag_eq_some_iff (l : TagMap) (h : (l.map Prod.fst).Nodup)
    (k v : String) : lookupTag l k = some v ↔ (k, v) ∈ l := by
  induction l with
  | nil => simp [lookupTag]
  | cons hd tl ih =>
      obtain ⟨k0, v0⟩ := hd
      simp only [List.map_cons, List.nodup_cons] at h
      by_cases h0 : k0 = k
      · subst h0
        constructor
        · intro h1
          simp [lookupTag] at h1
          subst h1
          exact List.mem_cons_self _ _
        · intro h1
          rcases List.mem_cons.mp h1 with h1 | h1
          · rw [← h1]
            simp [lookupTag]
          · exact absurd (List.mem_map_of_mem Prod.fst h1) h.1
      · simp only [lookupTag, if_neg h0, List.mem_cons]
        rw [ih h.2]
        constructor
        · exact fun h1 => Or.inr h1
        · rintro (h1 | h1)
          · simp only [Prod.mk.injEq] at h1
            exact absurd h1.1.symm h0
          · exact h1

theorem lookupTag_eq_none_iff (l : TagMap) (k : String) :
    lookupTag l k = none ↔ k ∉ l.map Prod.fst := by
  induction l with
  | nil => simp [lookupTag]
  | cons hd tl ih =>
      obtain ⟨k0, v0⟩ := hd
      by_cases h0 : k0 = k <;> simp [lookupTag, h0, ih, Ne.symm]

theorem lookupTag_perm (l₁ l₂ : TagMap) (hp : l₁.Perm l₂)
    (h : (l₂.map Prod.fst).Nodup) (k : String) :
    lookupTag l₁ k = lookupTag l₂ k := by
  cases h2 : lookupTag l₂ k with
  | none =>
      rw [lookupTag_eq_none_iff] at h2 ⊢
      exact fun hmem => h2 ((hp.map Prod.fst).mem_iff.mp hmem)
  | some v =>
      have h1 : (l₁.map Prod.fst).Nodup := ((hp.map Prod.fst).nodup_iff).mpr h
      rw [lookupTag_eq_some_iff l₂ h] at h2
      rw [lookupTag_eq_some_iff l₁ h1]
      exact hp.mem_iff.mpr h2

/-- C4: for every tag set `t` with distinct keys, converting it to the
service-specific tag list and back is the identity as Go map equality
(pointwise-equal lookups), independent of the order in which the tag list is
produced: any permutation `l` of `Tags t` satisfies
`KeyValueTags l = t` pointwise. -/
theorem KeyValueTags_Tags_roundtrip (t : TagMap) (ht : (t.map Prod.fst).Nodup)
    (l : List (String × String)) (hl : l.Perm (Tags t)) (k : String) :
    lookupTag (KeyValueTags l) k = lookupTag t k := by
  have h1 : lookupTag (KeyValueTags l) k = lookupTag l.reverse k :=
    lookupTag_goMapOfList l k
  rw [h1]
  exact lookupTag_perm l.reverse t (l.reverse_perm.trans hl) ht k

theorem KeyValueTags_Tags_roundtrip_witness :
    lookupTag (KeyValueTags [("Name", "web"), ("Env", "prod")]) "Env" =
      lookupTag [("Env", "prod"), ("Name", "web")] "Env" :=
  KeyValueTags_Tags_roundtrip [("Env", "prod"), ("Name", "web")] (by decide)
    [("Name", "web"), ("Env", "prod")] (by decide) "Env"

/-- A caller-supplied cancellation context. The provider never inspects it,
only forwards it, so it is an opaque token. -/
structure Ctx where
  id : Nat
deriving DecidableEq, Repr

/-- A Go error value as the tag helpers return it: either an AWS SDK error
passed through or one wrapped by `fmt.Errorf("...: %w", err)` with the format
text up to the `%w` verb. -/
inductive GoError where
  | aws (e : AWSError)
  | wrapped (text : String) (cause : AWSError)
deriving DecidableEq, Repr

/-- One AWS SDK invocation made by a tag helper, with the context it was
given and its request payload. -/
inductive APICall where
  | listTagsForResource (ctx : Ctx) (identifier : String)
  | untagResource (ctx : Ctx) (identifier : String) (tagKeys : List String)
  | tagResource (ctx : Ctx) (identifier : String) (tags : TagMap)
deriving DecidableEq, Repr

/-- The context an API call was invoked with. -/
def APICall.ctxOf : APICall → Ctx
  | .listTagsForResource c _ => c
  | .untagResource c _ _ => c
  | .tagResource c _ _ => c

def APICall.isUntag : APICall → Bool
  | .untagResource _ _ _ => true
  | _ => false

def APICall.isTag : APICall → Bool
  | .tagResource _ _ _ => true
  | _ => false

/-- The oracle for the two write calls `UpdateTags` can make: the outcome the
AWS endpoint would return for the untag (remove) call and for the tag
(add/update) call. `none` is success. -/
structure UpdateConn where
  untagResult : Option AWSError
  tagResult : Option AWSError
deriving DecidableEq, Repr

/-- tags_gen.go (shield lines 65-96; the ecs body, lines 94-125, is the same
generated template), `UpdateTags`: reconciles the remote tag set from
`oldTagsMap` to `newTagsMap`. Returns the list of SDK calls issued, in order,
and the returned error. The Go early return on a failed untag call is the
first `match`; the second block runs only when the first made no call or
succeeded. -/
def UpdateTags (ctx : Ctx) (conn : UpdateConn) (identifier : String)
    (oldTagsMap newTagsMap : TagMap) : List APICall × Option GoError :=
  let oldTags := tftags.New oldTagsMap
  let newTags := tftags.New newTagsMap
  let removedTags := tftags.Removed oldTags newTags
  if removedTags.length > 0 then
    let call := APICall.untagResource ctx identifier (tftags.Keys (tftags.IgnoreAWS removedTags))
    match conn.untagResult with
    | some e =>
        ([call], some (.wrapped ("untagging resource (" ++ identifier ++ "): ") e))
    | none =>
        let updatedTags := tftags.Updated oldTags newTags
        if updatedTags.length > 0 then
          let call2 := APICall.tagResource ctx identifier (tftags.IgnoreAWS updatedTags)
          match conn.tagResult with
          | some e =>
              ([call, call2], some (.wrapped ("tagging resource (" ++ identifier ++ "): ") e))
          | none => ([call, call2], none)
        else ([call], none)
  else
    let updatedTags := tftags.Updated oldTags newTags
    if updatedTags.length > 0 then
      let call2 := APICall.tagResource ctx identifier (tftags.IgnoreAWS updatedTags)
      match conn.tagResult with
      | some e =>
          ([call2], some (.wrapped ("tagging resource (" ++ identifier ++ "): ") e))
      | none => ([call2], none)
    else ([], none)

/-- Extensional equality of two Go maps: equal key sets with equal values. -/
def mapEquiv (m₁ m₂ : TagMap) : Prop :=
  ∀ k, lookupTag m₁ k = lookupTag m₂ k

theorem removed_eq_nil_of_mapEquiv (oldTags newTags : TagMap)
    (ho : (oldTags.map Prod.fst).Nodup) (heq : mapEquiv oldTags newTags) :
    tftags.Removed oldTags newTags = [] := by
  rw [tftags.Removed, List.filter_eq_nil_iff]
  intro kv hkv
  have h1 : lookupTag oldTags kv.1 = some kv.2 := by
    rw [lookupTag_eq_some_iff oldTags ho]
    exact hkv
  have h2 : hasKey newTags kv.1 = true := by
    rw [hasKey, ← heq kv.1, h1]
    rfl
  simp [h2]

theorem updated_eq_nil_of_mapEquiv (oldTags newTags : TagMap)
    (hn : (newTags.map Prod.fst).Nodup) (heq : mapEquiv oldTags newTags) :
    tftags.Updated oldTags newTags = [] := by
  rw [tftags.Updated, List.filter_eq_nil_iff]
  intro kv hkv
  have h1 : lookupTag newTags kv.1 = some kv.2 := by
    rw [lookupTag_eq_some_iff newTags hn]
    exact hkv
  have h2 : lookupTag oldTags kv.1 = some kv.2 := (heq kv.1).trans h1
  simp [h2]

/-- C1: `UpdateTags` issues an untag (remove) call exactly when
`oldTags.Removed(newTags)` is non-empty and a tag (add/update) call exactly
when `oldTags.Updated(newTags)` is non-empty (the latter provided the untag
call, if one was made, did not fail), with the removal call before the
addition call; when the two maps are equal it makes no API call and returns
nil; and when the untag call fails it returns that error (wrapped) without
attempting the tag call. -/
theorem UpdateTags_reconciliation (ctx : Ctx) (conn : UpdateConn)
    (identifier : String) (oldTags newTags : TagMap)
    (ho : (oldTags.map Prod.fst).Nodup) (hn : (newTags.map Prod.fst).Nodup) :
    (((UpdateTags ctx conn identifier oldTags newTags).1.any APICall.isUntag) = true
        ↔ tftags.Removed oldTags newTags ≠ []) ∧
    (conn.untagResult = none →
      (((UpdateTags ctx conn identifier oldTags newTags).1.any APICall.isTag) = true
        ↔ tftags.Updated oldTags newTags ≠ [])) ∧
    ((UpdateTags ctx conn identifier oldTags newTags).1 =
      (UpdateTags ctx conn identifier oldTags newTags).1.filter APICall.isUntag ++
        (UpdateTags ctx conn identifier oldTags newTags).1.filter APICall.isTag) ∧
    (mapEquiv oldTags newTags →
      UpdateTags ctx conn identifier oldTags newTags = ([], none)) ∧
    (∀ e, tftags.Removed oldTags newTags ≠ [] → conn.untagResult = some e →
      (UpdateTags ctx conn identifier oldTags newTags).2 =
          some (.wrapped ("untagging resource (" ++ identifier ++ "): ") e) ∧
        (UpdateTags ctx conn identifier oldTags newTags).1.any APICall.isTag = false) := by
  have hd : mapEquiv oldTags newTags →
      UpdateTags ctx conn identifier oldTags newTags = ([], none) := by
    intro heq
    have h1 := removed_eq_nil_of_mapEquiv oldTags newTags ho heq
    have h2 := updated_eq_nil_of_mapEquiv oldTags newTags hn heq
    simp [UpdateTags, tftags.New, h1, h2]
  refine ⟨?_, ?_, ?_, hd, ?_⟩ <;>
  · rcases hrem : tftags.Removed oldTags newTags with _ | ⟨r0, rrest⟩ <;>
      rcases hupd : tftags.Updated oldTags newTags with _ | ⟨u0, urest⟩ <;>
      cases hun : conn.untagResult <;>
      cases htag : conn.tagResult <;>
      simp [UpdateTags, tftags.New, hrem, hupd, hun, htag,
        APICall.isUntag, APICall.isTag]

theorem UpdateTags_reconciliation_witness :
    ((UpdateTags ⟨0⟩ ⟨none, none⟩ "arn:aws:shield::protection"
        [("a", "1")] [("b", "2")]).1.any APICall.isUntag) = true := by
  have h := UpdateTags_reconciliation ⟨0⟩ ⟨none, none⟩ "arn:aws:shield::protection"
    [("a", "1")] [("b", "2")] (by decide) (by decide)
  exact h.1.mpr (by decide)

/-- Whether the character list `needle` occurs at the start of `hay`. -/
def charsStartWith : List Char → List Char → Bool
  | _, [] => true
  | [], _ :: _ => false
  | a :: as, b :: bs => a == b && charsStartWith as bs

/-- Whether the character list `needle` occurs anywhere inside `hay`. -/
def charsContain : List Char → List Char → Bool
  | [], needle => needle.isEmpty
  | a :: as, needle => charsStartWith (a :: as) needle || charsContain as needle

/-- Go `strings.Contains(hay, needle)`. -/
def strContains (hay needle : String) : Bool :=
  charsContain hay.toList needle.toList

/-- `tfawserr.ErrCodeEquals(err, code)`: `err` is an AWS error whose code is
`code`. False on a nil error. -/
def errCodeEquals (e : Option AWSError) (code : String) : Bool :=
  match e with
  | some err => err.code == code
  | none => false

/-- `tfawserr.ErrMessageContains(err, code, msg)`: `err` is an AWS error whose
code is `code` and whose message contains `msg`. False on a nil error. -/
def errMessageContains (e : Option AWSError) (code msg : String) : Bool :=
  match e with
  | some err => err.code == code && strContains err.message msg
  | none => false

/-- The slice of `aws-sdk-go`'s `request.Request` the retry handlers read and
write: the operation name, the failure of the attempt (`r.Error`), the current
retry count and the `Retryable` flag (`none` models the nil pointer, leaving
the decision to the SDK's default retryer). -/
structure Request where
  operationName : String
  error : Option AWSError
  retryCount : Nat
  retryable : Option Bool
deriving DecidableEq, Repr

/-- conns/config.go lines 281-319: the retry handler pushed onto the
configservice client. `funcErr` is the `err` variable of `ConfigureProvider`
that the closure captures at line 303 (the source reads `err`, not
`r.Error`, there). -/
def configserviceRetryHandler (funcErr : Option AWSError) (r : Request) : Request :=
  if r.operationName == "DeleteOrganizationConfigRule" ||
      r.operationName == "DescribeOrganizationConfigRules" ||
      r.operationName == "DescribeOrganizationConfigRuleStatuses" ||
      r.operationName == "PutOrganizationConfigRule" then
    if !(errMessageContains r.error "OrganizationAccessDeniedException"
        "This action can be only made by AWS Organization's master account.") then
      r
    else if r.retryCount < 9 then
      { r with retryable := some true }
    else
      { r with retryable := some false }
  else if r.operationName == "DeleteOrganizationConformancePack" ||
      r.operationName == "DescribeOrganizationConformancePacks" ||
      r.operationName == "DescribeOrganizationConformancePackStatuses" ||
      r.operationName == "PutOrganizationConformancePack" then
    if !(errCodeEquals r.error "OrganizationAccessDeniedException") then
      if r.operationName == "DeleteOrganizationConformancePack" &&
          errCodeEquals funcErr "ResourceInUseException" then
        { r with retryable := some true }
      else
        r
    else if r.retryCount < 9 then
      { r with retryable := some true }
    else
      { r with retryable := some false }
  else
    r

/-- The configservice retry handler as it is actually installed:
`ConfigureProvider` reaches the handler-registration block only after every
check of its `err` variable has passed, so the captured `err` is nil whenever
the closure later runs. -/
def installedConfigserviceRetryHandler (r : Request) : Request :=
  configserviceRetryHandler none r

/-- conns/config.go lines 337-370: the retry handler pushed onto the ec2
client (`switch err := r.Error; r.Operation.Name`). -/
def ec2RetryHandler (r : Request) : Request :=
  if r.operationName == "AttachVpnGateway" || r.operationName == "DetachVpnGateway" then
    if errMessageContains r.error "InvalidParameterValue"
        "This call cannot be completed because there are pending VPNs or Virtual Interfaces" then
      { r with retryable := some true }
    else r
  else if r.operationName == "CreateClientVpnEndpoint" then
    if errMessageContains r.error "OperationNotPermitted"
        "Endpoint cannot be created while another endpoint is being created" then
      { r with retryable := some true }
    else r
  else if r.operationName == "CreateClientVpnRoute" ||
      r.operationName == "DeleteClientVpnRoute" then
    if errMessageContains r.error "ConcurrentMutationLimitExceeded"
        "Cannot initiate another change for this endpoint at this time" then
      { r with retryable := some true }
    else r
  else if r.operationName == "CreateVpnConnection" then
    if errMessageContains r.error "VpnConnectionLimitExceeded"
        "maximum number of mutating objects has been reached" then
      { r with retryable := some true }
    else r
  else if r.operationName == "CreateVpnGateway" then
    if errMessageContains r.error "VpnGatewayLimitExceeded"
        "maximum number of mutating objects has been reached" then
      { r with retryable := some true }
    else r
  else if r.operationName == "RunInstances" then
    if errCodeEquals r.error "InsufficientInstanceCapacity" then
      { r with retryable := some false }
    else r
  else
    r

/-- conns/config.go lines 469-488: the retry handler pushed onto the wafv2
client. `funcErr` is the `err` variable of `ConfigureProvider` that the
closure captures at line 484 (the source reads `err`, not `r.Error`, there). -/
def wafv2RetryHandler (funcErr : Option AWSError) (r : Request) : Request :=
  let r1 :=
    if errMessageContains r.error "WAFInternalErrorException" "Retry your request" then
      { r with retryable := some true }
    else r
  let r2 :=
    if errMessageContains r1.error "WAFServiceLinkedRoleErrorException" "Retry" then
      { r1 with retryable := some true }
    else r1
  if r2.operationName == "CreateIPSet" || r2.operationName == "CreateRegexPatternSet" ||
      r2.operationName == "CreateRuleGroup" || r2.operationName == "CreateWebACL" then
    let r3 :=
      if errMessageContains r2.error "WAFTagOperationException" "Retry your request" then
        { r2 with retryable := some true }
      else r2
    if errMessageContains funcErr "WAFTagOperationInternalErrorException" "Retry your request" then
      { r3 with retryable := some true }
    else r3
  else
    r2

/-- The wafv2 retry handler as it is actually installed: the captured `err`
of `ConfigureProvider` is nil whenever the closure later runs. -/
def installedWafv2RetryHandler (r : Request) : Request :=
  wafv2RetryHandler none r

/-- C3: for the four ConfigService organization config rule operations, a
failure that is an OrganizationAccessDeniedException carrying the
master-account message is marked retryable exactly when the retry count is
strictly below 9, and is explicitly marked not retryable at 9 or more. -/
theorem configservice_orgConfigRule_retry (funcErr : Option AWSError) (r : Request)
    (hop : r.operationName = "DeleteOrganizationConfigRule" ∨
      r.operationName = "DescribeOrganizationConfigRules" ∨
      r.operationName = "DescribeOrganizationConfigRuleStatuses" ∨
      r.operationName = "PutOrganizationConfigRule")
    (herr : errMessageContains r.error "OrganizationAccessDeniedException"
      "This action can be only made by AWS Organization's master account." = true) :
    (configserviceRetryHandler funcErr r).retryable = some (decide (r.retryCount < 9)) := by
  rcases hop with h | h | h | h <;>
    · by_cases h9 : r.retryCount < 9 <;>
        simp [configserviceRetryHandler, h, herr, h9]

theorem configservice_orgConfigRule_retry_witness :
    (configserviceRetryHandler none
      ⟨"PutOrganizationConfigRule",
        some ⟨"OrganizationAccessDeniedException",
          "This action can be only made by AWS Organization's master account."⟩,
        3, none⟩).retryable = some true := by
  have h := configservice_orgConfigRule_retry none
    ⟨"PutOrganizationConfigRule",
      some ⟨"OrganizationAccessDeniedException",
        "This action can be only made by AWS Organization's master account."⟩,
      3, none⟩
    (Or.inr (Or.inr (Or.inr rfl))) (by decide)
  simpa using h

/-- C6 (code bug): a DeleteOrganizationConformancePack request that fails with
a ResourceInUseException is NOT marked retryable by the installed
configservice retry handler. Line 303 of conns/config.go passes the enclosing
function's `err` variable to `tfawserr.ErrCodeEquals` instead of `r.Error`,
and that variable is necessarily nil once the handler is installed, so the
request passes through unchanged; the check fires only if the captured
variable itself held the error. -/
theorem configservice_resourceInUse_not_marked_retryable :
    (installedConfigserviceRetryHandler
      ⟨"DeleteOrganizationConformancePack",
        some ⟨"ResourceInUseException",
          "Conformance pack is in use by organization"⟩,
        0, none⟩).retryable = none ∧
    (configserviceRetryHandler
      (some ⟨"ResourceInUseException", ""⟩)
      ⟨"DeleteOrganizationConformancePack",
        some ⟨"ResourceInUseException",
          "Conformance pack is in use by organization"⟩,
        0, none⟩).retryable = some true := by
  decide

/-- C7: an EC2 RunInstances request failing with error code
InsufficientInstanceCapacity is explicitly marked not retryable by the ec2
retry handler. -/
theorem ec2_runInstances_insufficientCapacity_not_retryable (r : Request)
    (hop : r.operationName = "RunInstances")
    (herr : errCodeEquals r.error "InsufficientInstanceCapacity" = true) :
    (ec2RetryHandler r).retryable = some false := by
  simp [ec2RetryHandler, hop, herr]

theorem ec2_runInstances_insufficientCapacity_witness :
    (ec2RetryHandler
      ⟨"RunInstances",
        some ⟨"InsufficientInstanceCapacity",
          "There is no capacity available for the request"⟩,
        0, none⟩).retryable = some false :=
  ec2_runInstances_insufficientCapacity_not_retryable _ rfl (by decide)

/-- C5 (code bug): for CreateIPSet, a WAFTagOperationException whose message
contains "Retry your request" is marked retryable, but a
WAFTagOperationInternalErrorException with the same message is NOT. Line 484
of conns/config.go passes the enclosing function's `err` variable to
`tfawserr.ErrMessageContains` instead of `r.Error`, and that variable is
necessarily nil once the handler is installed. -/
theorem wafv2_tagOperationInternalError_not_marked_retryable :
    (installedWafv2RetryHandler
      ⟨"CreateIPSet",
        some ⟨"WAFTagOperationException",
          "An error occurred during the tagging operation. Retry your request."⟩,
        0, none⟩).retryable = some true ∧
    (installedWafv2RetryHandler
      ⟨"CreateIPSet",
        some ⟨"WAFTagOperationInternalErrorException",
          "AWS WAF could not perform your tagging operation because of an internal error. Retry your request."⟩,
        0, none⟩).retryable = none := by
  decide

/-- conns/config.go lines 152-175: the account ID filter of
`ConfigureProvider`. Returns the "AWS account ID not allowed" diagnostic when
it rejects the resolved account ID and `none` when configuration proceeds.
The first branch embeds the source's loop as written: when
ForbiddenAccountIds is non-empty it ranges over AllowedAccountIds (the loop
variable is nonetheless named `forbiddenAccountID`). -/
def accountIDFilterDiag (allowedAccountIds forbiddenAccountIds : List String)
    (accountID : String) : Option String :=
  if forbiddenAccountIds.length > 0 && allowedAccountIds.contains accountID then
    some ("AWS account ID not allowed: " ++ accountID)
  else if allowedAccountIds.length > 0 && !(allowedAccountIds.contains accountID) then
    some ("AWS account ID not allowed: " ++ accountID)
  else
    none

/-- The rejection condition as the claim states it: the account ID is
excluded when AllowedAccountIds is non-empty and does not contain it, or when
ForbiddenAccountIds is non-empty and contains it. -/
def claimAccountIDRejected (allowedAccountIds forbiddenAccountIds : List String)
    (accountID : String) : Bool :=
  (allowedAccountIds.length > 0 && !(allowedAccountIds.contains accountID)) ||
  (forbiddenAccountIds.length > 0 && forbiddenAccountIds.contains accountID)

/-- C2 (code bug): with AllowedAccountIds = [111111111111] and
ForbiddenAccountIds = [222222222222], account 111111111111 is explicitly
allowed and not forbidden, yet the code rejects it, because the
forbidden-account check at line 158 of conns/config.go iterates over
AllowedAccountIds; conversely, an account listed in ForbiddenAccountIds is
accepted whenever AllowedAccountIds is empty. -/
theorem accountIDFilter_misreads_allowed_list :
    accountIDFilterDiag ["111111111111"] ["222222222222"] "111111111111" =
        some "AWS account ID not allowed: 111111111111" ∧
    claimAccountIDRejected ["111111111111"] ["222222222222"] "111111111111" = false ∧
    accountIDFilterDiag [] ["111111111111"] "111111111111" = none ∧
    claimAccountIDRejected [] ["111111111111"] "111111111111" = true := by
  decide

/-- The tag value returned by a `ListTags` helper: the nil map (Go `nil`
returned in the NotFound branch of the ecs helper) or a concrete tag set. -/
inductive TagsValue where
  | nilTags
  | tags (t : TagMap)
deriving DecidableEq, Repr

/-- The error returned by a `ListTags` helper: success, a
`resource.NotFoundError` carrying the last error and the request identifier,
or the AWS error passed through unchanged. -/
inductive ListTagsErr where
  | noError
  | notFound (lastError : AWSError) (lastRequest : String)
  | awsError (e : AWSError)
deriving DecidableEq, Repr

/-- ecs/tags_gen.go lines 40-59, `ListTags`: lists ecs service tags.
`resp` is the outcome of `ListTagsForResourceWithContext`: an AWS error or
the returned tag list. An InvalidParameterException about an inactive cluster
becomes nil tags plus a NotFoundError; any other failure becomes the empty
tag set plus the original error; success converts the tag list. -/
def ecsListTags (identifier : String)
    (resp : Except AWSError (List (String × String))) : TagsValue × ListTagsErr :=
  match resp with
  | .error e =>
      if errMessageContains (some e) "InvalidParameterException"
          "The specified cluster is inactive. Specify an active cluster and try again." then
        (.nilTags, .notFound e identifier)
      else
        (.tags (tftags.New []), .awsError e)
  | .ok tagList =>
      (.tags (KeyValueTags tagList), .noError)

/-- C8: ecs `ListTags` maps a failure that is an InvalidParameterException
about an inactive cluster to nil tags plus a NotFoundError wrapping that
failure, and returns every other failure unchanged next to an empty tag
set. -/
theorem ecsListTags_inactive_cluster_notFound (identifier : String) (e : AWSError) :
    (errMessageContains (some e) "InvalidParameterException"
        "The specified cluster is inactive. Specify an active cluster and try again." = true →
      ecsListTags identifier (.error e) = (.nilTags, .notFound e identifier)) ∧
    (errMessageContains (some e) "InvalidParameterException"
        "The specified cluster is inactive. Specify an active cluster and try again." = false →
      ecsListTags identifier (.error e) = (.tags [], .awsError e)) := by
  constructor
  · intro h
    simp [ecsListTags, h]
  · intro h
    simp [ecsListTags, h, tftags.New]

theorem ecsListTags_inactive_cluster_notFound_witness :
    ecsListTags "arn:aws:ecs:svc"
        (.error ⟨"InvalidParameterException",
          "The specified cluster is inactive. Specify an active cluster and try again."⟩) =
      (.nilTags, .notFound
        ⟨"InvalidParameterException",
          "The specified cluster is inactive. Specify an active cluster and try again."⟩
        "arn:aws:ecs:svc") :=
  (ecsListTags_inactive_cluster_notFound "arn:aws:ecs:svc"
    ⟨"InvalidParameterException",
      "The specified cluster is inactive. Specify an active cluster and try again."⟩).1
    (by decide)

/-- One element of a `DescribeTags` response: the tags described for one
resource ARN. -/
structure TagDescription where
  tags : List (String × String)
deriving DecidableEq, Repr

/-- The `DescribeTags` output: a list of tag descriptions. -/
structure DescribeTagsOutput where
  tagDescriptions : List TagDescription
deriving DecidableEq, Repr

/-- elbv2/tags_gen.go lines 18-30, `ListTags`: lists elbv2 service tags.
The success path reads `output.TagDescriptions[0]` with no bounds guard; the
embedding returns `none` exactly where the Go code would panic with an
out-of-range index. -/
def elbv2ListTags (resp : Except AWSError DescribeTagsOutput) :
    Option (TagsValue × ListTagsErr) :=
  match resp with
  | .error e => some (.tags (tftags.New []), .awsError e)
  | .ok output =>
      match output.tagDescriptions with
      | [] => none
      | d :: _ => some (.tags (KeyValueTags (Tags d.tags)), .noError)

/-- C9: on every successful DescribeTags response with at least one tag
description, elbv2 `ListTags` returns the tag set of the first description;
the unguarded index makes the result undefined (the embedding's `none`, a Go
index-out-of-range panic) exactly when the successful response holds no tag
description. -/
theorem elbv2ListTags_first_description (output : DescribeTagsOutput) :
    (∀ d rest, output.tagDescriptions = d :: rest →
      elbv2ListTags (.ok output) =
        some (.tags (KeyValueTags (Tags d.tags)), .noError)) ∧
    (output.tagDescriptions = [] → elbv2ListTags (.ok output) = none) := by
  constructor
  · intro d rest h
    simp [elbv2ListTags, h]
  · intro h
    simp [elbv2ListTags, h]

theorem elbv2ListTags_first_description_witness :
    elbv2ListTags (.ok ⟨[⟨[("Name", "lb")]⟩]⟩) =
      some (.tags (KeyValueTags (Tags [("Name", "lb")])), .noError) :=
  (elbv2ListTags_first_description ⟨[⟨[("Name", "lb")]⟩]⟩).1 ⟨[("Name", "lb")]⟩ [] rfl

/-- shield/tags_gen.go lines 18-30, `ListTags`: lists shield service tags,
recording the single SDK invocation it makes together with the context it
forwards into `ListTagsForResourceWithContext`. -/
def shieldListTags (ctx : Ctx) (identifier : String)
    (resp : Except AWSError (List (String × String))) :
    List APICall × (TagsValue × ListTagsErr) :=
  ([.listTagsForResource ctx identifier],
    match resp with
    | .error e => (.tags (tftags.New []), .awsError e)
    | .ok tagList => (.tags (KeyValueTags tagList), .noError))

/-- The page loop of ecs/services_data_source.go `listServices`: one
recursive step per paginator page, recording the context passed to each
`NextPage(ctx)` call. An error page aborts with nil output and that error. -/
def listServicesLoop (ctx : Ctx) :
    List (Except AWSError (List String)) → List String →
      List Ctx × Except AWSError (List String)
  | [], output => ([], .ok output)
  | page :: rest, output =>
      match page with
      | .error e => ([ctx], .error e)
      | .ok arns =>
          let pr := listServicesLoop ctx rest (output ++ arns)
          (ctx :: pr.1, pr.2)

/-- ecs/services_data_source.go lines 84-99, `listServices`: drains the
ListServices paginator, appending each page's service ARNs. `pagesData` is
the page sequence the paginator yields. -/
def listServices (ctx : Ctx) (pagesData : List (Except AWSError (List String))) :
    List Ctx × Except AWSError (List String) :=
  listServicesLoop ctx pagesData []

theorem listServicesLoop_ctx (ctx : Ctx)
    (pagesData : List (Except AWSError (List String))) :
    ∀ output c, c ∈ (listServicesLoop ctx pagesData output).1 → c = ctx := by
  induction pagesData with
  | nil =>
      intro output c hc
      simp [listServicesLoop] at hc
  | cons page rest ih =>
      intro output c hc
      cases page with
      | error e =>
          simp [listServicesLoop] at hc
          exact hc
      | ok arns =>
          simp [listServicesLoop] at hc
          rcases hc with rfl | hc
          · rfl
          · exact ih _ c hc

/-- C10: every SDK invocation made by the tag helpers (`ListTags`,
`UpdateTags`) and by the ECS services listing across all paginator pages
receives the caller-supplied context unchanged: every recorded call carries
the given `ctx` and no other. -/
theorem context_forwarded_unchanged (ctx : Ctx) (identifier : String)
    (resp : Except AWSError (List (String × String)))
    (conn : UpdateConn) (oldTags newTags : TagMap)
    (pagesData : List (Except AWSError (List String))) :
    (∀ c ∈ (shieldListTags ctx identifier resp).1, c.ctxOf = ctx) ∧
    (∀ c ∈ (UpdateTags ctx conn identifier oldTags newTags).1, c.ctxOf = ctx) ∧
    (∀ c ∈ (listServices ctx pagesData).1, c = ctx) := by
  refine ⟨?_, ?_, ?_⟩
  · intro c hc
    simp [shieldListTags] at hc
    subst hc
    rfl
  · intro c hc
    rcases hrem : tftags.Removed oldTags newTags with _ | ⟨r0, rrest⟩ <;>
      rcases hupd : tftags.Updated oldTags newTags with _ | ⟨u0, urest⟩ <;>
      cases hun : conn.untagResult <;>
      cases htag : conn.tagResult <;>
      simp [UpdateTags, tftags.New, hrem, hupd, hun, htag] at hc <;>
      (rcases hc with rfl | rfl) <;> rfl
  · intro c hc
    exact listServicesLoop_ctx ctx pagesData [] c hc

theorem context_forwarded_unchanged_witness :
    (APICall.listTagsForResource ⟨7⟩ "arn:aws:shield::protection").ctxOf = ⟨7⟩ :=
  (context_forwarded_unchanged ⟨7⟩ "arn:aws:shield::protection" (.ok [])
      ⟨none, none⟩ [] [] []).1
    (APICall.listTagsForResource ⟨7⟩ "arn:aws:shield::protection") (by decide)
